import Mathlib

/-!
Shallow embedding of the `auto_reword_controller` daily stock report
pipeline (models.py, plan.py, planner.py, executor.py, report.py).

Python values that cross the planner/JSON boundary are modelled by the
inductive `JsonVal` (Python `None` is `JsonVal.null`); Python dicts are
association lists with first-occurrence lookup; Python floats are exact
rationals, with `round(x, 3)` modelled as round-half-to-even on ℚ.
Fallible Python code (attribute errors, `{**x}` unpacking of a
non-mapping, iterating a non-iterable) is modelled with `Except String`.
-/

namespace AutoReword

/-- Python/JSON values exchanged with the planner client. -/
inductive JsonVal where
  | null : JsonVal
  | bool : Bool → JsonVal
  | num : Int → JsonVal
  | str : String → JsonVal
  | arr : List JsonVal → JsonVal
  | obj : List (String × JsonVal) → JsonVal

/-- First-occurrence lookup in a Python dict modelled as an association list. -/
def dlookup (kvs : List (String × JsonVal)) (k : String) : Option JsonVal :=
  match kvs with
  | [] => none
  | (k', v) :: rest => if k' = k then some v else dlookup rest k

/-- Python `d.get(k)`: `None` when the key is absent. -/
def pyGet (kvs : List (String × JsonVal)) (k : String) : JsonVal :=
  (dlookup kvs k).getD .null

/-- Python truthiness of a value. -/
def pyTruthy : JsonVal → Bool
  | .null => false
  | .bool b => b
  | .num n => n != 0
  | .str s => s ≠ ""
  | .arr xs => !xs.isEmpty
  | .obj kvs => !kvs.isEmpty

/-- Python `{**a, **b}`: keys of `a` in order (values overridden by `b`),
then the keys of `b` that are new, in order. -/
def mergeDicts (a b : List (String × JsonVal)) : List (String × JsonVal) :=
  a.map (fun kv => (kv.1, (dlookup b kv.1).getD kv.2))
    ++ b.filter (fun kv => (dlookup a kv.1).isNone)

/-- Python iteration `for item in x`: lists yield their items, strings yield
one-character strings, dicts yield their keys; other values raise `TypeError`. -/
def pyIter : JsonVal → Except String (List JsonVal)
  | .arr xs => .ok xs
  | .str s => .ok (s.toList.map (fun c => .str (String.singleton c)))
  | .obj kvs => .ok (kvs.map (fun kv => .str kv.1))
  | _ => .error "TypeError: object is not iterable"

/-! ## models.py: data layers and the quality model -/

/-- `DataLayer` (models.py). `macroLayer` stands for the source's `MACRO`
member (value "macro"); the other members keep the source's names. -/
inductive DataLayer where
  | price | disclosure | macroLayer | news | opinion | risk
  deriving DecidableEq, Repr

/-- Python's `round` to an integer: round half to even on the exact value. -/
def roundHalfEven (q : ℚ) : ℤ :=
  if q - ⌊q⌋ < 1/2 then ⌊q⌋
  else if 1/2 < q - ⌊q⌋ then ⌊q⌋ + 1
  else if ⌊q⌋ % 2 = 0 then ⌊q⌋ else ⌊q⌋ + 1

/-- Python `round(q, 3)` on the exact rational value of `q`. -/
def pyRound3 (q : ℚ) : ℚ := (roundHalfEven (q * 1000) : ℚ) / 1000

/-- `SourceMeta` (models.py): per-record trust/quality metadata. -/
structure SourceMeta where
  source_id : String
  layer : DataLayer
  source_score : ℚ
  recency_score : ℚ
  structure_score : ℚ
  consistency_score : ℚ
  deriving DecidableEq, Repr

namespace SourceMeta

/-- `SourceMeta.quality_score`: weighted sum of the four sub-scores
(weights 0.35 / 0.25 / 0.2 / 0.2), rounded to 3 decimals. -/
def quality_score (m : SourceMeta) : ℚ :=
  pyRound3 (m.source_score * (35/100) + m.recency_score * (25/100)
    + m.structure_score * (2/10) + m.consistency_score * (2/10))

/-- `SourceMeta.quality_band`: classify the quality score against the two
thresholds (defaults in the source: `main_threshold=0.7`, `minimum_quality=0.5`). -/
def quality_band (m : SourceMeta) (main_threshold minimum_quality : ℚ) : String :=
  if m.quality_score ≥ main_threshold then "main"
  else if m.quality_score ≥ minimum_quality then "support"
  else "discard"

end SourceMeta

/-- `ContentBlock` (models.py). -/
structure ContentBlock where
  title : String
  body : String
  meta : SourceMeta
  tags : List String
  deriving DecidableEq, Repr

/-- `TaskPlan` (models.py); `purpose` is an arbitrary Python value
(`JsonVal.null` models Python `None`). -/
structure TaskPlan where
  tool : String
  args : List (String × JsonVal)
  purpose : JsonVal

/-- `DailyStockReportPlan` (models.py); the date is kept as its ISO string. -/
structure DailyStockReportPlan where
  date : String
  tasks : List TaskPlan
  base_tasks : List String
  enrichment_reason : JsonVal

/-- `DailyStockReportData` (models.py): buckets of blocks keyed by tool
name, in insertion order. -/
structure DailyStockReportData where
  date : String
  collected : List (String × List ContentBlock)
  deriving DecidableEq, Repr

/-- `DailyStockReportData.add_block`: `setdefault(name, []).append(block)` on
an insertion-ordered dict. -/
def addBlock (collected : List (String × List ContentBlock)) (name : String)
    (b : ContentBlock) : List (String × List ContentBlock) :=
  match collected with
  | [] => [(name, [b])]
  | (k, bs) :: rest =>
      if k = name then (k, bs ++ [b]) :: rest else (k, bs) :: addBlock rest name b

/-- Bucket lookup in a collected dataset. -/
def bucket? (collected : List (String × List ContentBlock)) (name : String) :
    Option (List ContentBlock) :=
  match collected with
  | [] => none
  | (k, bs) :: rest => if k = name then some bs else bucket? rest name

/-- `ReportSection` (models.py). -/
structure ReportSection where
  heading : String
  summary : String
  details : List String
  caution : Option String
  layer : DataLayer
  deriving DecidableEq, Repr

/-- `DailyStockReportOutput` (models.py), metadata field omitted (always
empty in the modelled code paths). -/
structure DailyStockReportOutput where
  date : String
  sections : List ReportSection
  raw_data : DailyStockReportData
  deriving DecidableEq, Repr

/-! ## plan.py: base plan, enrichment, layer classifier -/

/-- `BASE_TASKS` (plan.py): the mandatory baseline tool names. -/
def BASE_TASKS : List String :=
  ["get_index_snapshot", "get_macro_snapshot", "get_dart_disclosures"]

/-- `build_base_plan` (plan.py). -/
def build_base_plan (target_date : String) : DailyStockReportPlan where
  date := target_date
  tasks :=
    [ ⟨"get_index_snapshot", [("indices", .arr [.str "KOSPI", .str "KOSDAQ"])],
        .str "지수 스냅샷"⟩,
      ⟨"get_macro_snapshot", [], .str "금리/환율 등 거시"⟩,
      ⟨"get_dart_disclosures", [("importance", .str "high")], .str "주요 공시 이벤트"⟩ ]
  base_tasks := BASE_TASKS
  enrichment_reason := .null

/-- `enrich_plan` (plan.py): append one news-search and one forum-sentiment
task per cue, in cue order. -/
def enrich_plan (base_plan : DailyStockReportPlan) (cues : List String) :
    DailyStockReportPlan where
  date := base_plan.date
  tasks := base_plan.tasks ++ cues.flatMap (fun cue =>
    [ ⟨"search_kr_stock_news", [("query", .str cue), ("limit", .num 5)],
        .str (cue ++ " 관련 뉴스 보강")⟩,
      ⟨"get_forum_sentiment", [("topics", .arr [.str cue])],
        .str (cue ++ " 시장 심리")⟩ ])
  base_tasks := base_plan.base_tasks
  enrichment_reason :=
    if cues.isEmpty then .null else .str (String.intercalate ", " cues)

/-- `layer_for_tool` (plan.py): static tool-name → layer table; unknown
tools default to `news`. -/
def layer_for_tool (tool : String) : DataLayer :=
  if tool = "get_index_snapshot" ∨ tool = "get_top_sectors" then .price
  else if tool = "get_dart_disclosures" then .disclosure
  else if tool = "get_macro_snapshot" then .macroLayer
  else if tool = "search_kr_stock_news" then .news
  else if tool = "get_forum_sentiment" then .opinion
  else .news

/-! ## planner.py: whitelist, compiler, LLM plan builder -/

/-- `ALLOWED_TOOLS` (planner.py): the MCP tool whitelist. -/
def ALLOWED_TOOLS : List String :=
  [ "get_index_snapshot", "get_macro_snapshot", "get_dart_disclosures",
    "get_top_sectors", "search_kr_stock_news", "get_forum_sentiment" ]

/-- `DEFAULT_TOOL_ARGS` (planner.py): safe default arguments per tool
(`DEFAULT_TOOL_ARGS.get(tool, {})` for tools without an entry). -/
def defaultToolArgs (tool : String) : List (String × JsonVal) :=
  if tool = "get_index_snapshot" then [("indices", .arr [.str "KOSPI", .str "KOSDAQ"])]
  else if tool = "get_dart_disclosures" then [("importance", .str "high")]
  else if tool = "search_kr_stock_news" then [("limit", .num 5)]
  else if tool = "get_top_sectors" then [("limit", .num 5)]
  else if tool = "get_forum_sentiment" then [("topics", .arr [])]
  else []

/-- One iteration of `PlanCompiler.compile_tasks`: `none` when the raw item
is silently dropped (missing/falsy tool value, a truthy hashable non-string
such as a bool or number, or a string outside the whitelist), an error when
the item is not a dict, when its `args` value is not a dict, or when its
tool value is a truthy list or dict — the set-membership test
`tool not in self.allowed_tools` hashes the value and raises `TypeError:
unhashable type` on those before any drop can happen. -/
def compileItem (item : JsonVal) : Except String (Option TaskPlan) :=
  match item with
  | .obj kvs =>
      if !pyTruthy (pyGet kvs "tool") then .ok none
      else
        match pyGet kvs "tool" with
        | .str s =>
            if ALLOWED_TOOLS.contains s then
              match dlookup kvs "args" with
              | none => .ok (some ⟨s, mergeDicts (defaultToolArgs s) [], pyGet kvs "purpose"⟩)
              | some (.obj a) =>
                  .ok (some ⟨s, mergeDicts (defaultToolArgs s) a, pyGet kvs "purpose"⟩)
              | some _ => .error "TypeError: argument after ** must be a mapping"
            else .ok none
        | .arr _ => .error "TypeError: unhashable type: list"
        | .obj _ => .error "TypeError: unhashable type: dict"
        | _ => .ok none
  | _ => .error "AttributeError: object has no attribute get"

/-- The loop body of `PlanCompiler.compile_tasks` over the iterated items. -/
def compileItems : List JsonVal → Except String (List TaskPlan)
  | [] => .ok []
  | item :: rest =>
      match compileItem item with
      | .error e => .error e
      | .ok hd =>
          match compileItems rest with
          | .error e => .error e
          | .ok tl => .ok (match hd with | none => tl | some t => t :: tl)

/-- `PlanCompiler.compile_tasks` (planner.py) applied to the raw `tasks`
value (any Python value: iteration may raise `TypeError`). -/
def compile_tasks (raw_tasks : JsonVal) : Except String (List TaskPlan) :=
  match pyIter raw_tasks with
  | .error e => .error e
  | .ok items => compileItems items

/-- `PlanCompiler.merge_with_base` (planner.py): start from the baseline
tasks and append each compiled extra task unless its tool is both already
present in the baseline and mandatory. -/
def merge_with_base (target_date : String) (base_plan : DailyStockReportPlan)
    (raw_plan : JsonVal) : Except String DailyStockReportPlan :=
  match raw_plan with
  | .obj kvs =>
      match compile_tasks ((dlookup kvs "tasks").getD (.arr [])) with
      | .error e => .error e
      | .ok extra =>
          .ok ⟨target_date,
            base_plan.tasks ++ extra.filter (fun task =>
              !((base_plan.tasks.map (·.tool)).contains task.tool
                && BASE_TASKS.contains task.tool)),
            base_plan.base_tasks, pyGet kvs "enrichment_reason"⟩
  | _ => .error "AttributeError: object has no attribute get"

/-- `LLMPlanBuilder._cue_tasks` (planner.py): raw JSON task dicts derived
from the cue terms. -/
def cue_tasks (cues : List String) : List JsonVal :=
  cues.flatMap (fun cue =>
    [ .obj [("tool", .str "search_kr_stock_news"),
            ("args", .obj [("query", .str cue), ("limit", .num 5)]),
            ("purpose", .str (cue ++ " 뉴스 보강"))],
      .obj [("tool", .str "get_forum_sentiment"),
            ("args", .obj [("topics", .arr [.str cue])]),
            ("purpose", .str (cue ++ " 커뮤니티 심리"))] ])

/-- `LLMPlanBuilder._fallback_plan` (planner.py). -/
def fallback_plan (target_date : String) (cues : List String) : JsonVal :=
  .obj [ ("date", .str target_date),
         ("tasks", .arr (cue_tasks cues)),
         ("enrichment_reason",
          if cues.isEmpty then .null else .str (String.intercalate ", " cues)) ]

/-- `LLMPlanBuilder.build` (planner.py). The configured client together with
`json.loads` of its response is abstracted as `client? : Option (Option JsonVal)`:
`none` means no client is configured; `some none` means the client's response
string failed JSON parsing (`json.JSONDecodeError`, caught); `some (some j)`
means the response parsed to the value `j`. -/
def build (client? : Option (Option JsonVal)) (target_date : String)
    (cues : List String) : Except String DailyStockReportPlan :=
  let base_plan := build_base_plan target_date
  let raw_plan : JsonVal :=
    match client? with
    | some (some j) => j
    | some none => fallback_plan target_date cues
    | none => fallback_plan target_date cues
  match merge_with_base target_date base_plan raw_plan with
  | .error e => .error e
  | .ok compiled =>
      match raw_plan with
      | .obj kvs =>
          if cues.isEmpty && !pyTruthy (pyGet kvs "tasks") then
            .ok (enrich_plan base_plan [])
          else .ok compiled
      | _ => .error "AttributeError: object has no attribute get"

/-! ## executor.py: plan execution and record wrapping -/

/-- The contents of an explicit `meta` mapping inside a tool record. -/
structure MetaFields where
  source_id : String
  source_score : ℚ
  recency_score : ℚ
  structure_score : ℚ
  consistency_score : ℚ
  deriving DecidableEq, Repr

/-- A record mapping returned by a tool call, with its recognized optional
keys (`none` models an absent key). -/
structure Record where
  title? : Option String
  body? : Option String
  tags? : Option (List String)
  meta? : Option MetaFields
  source_id? : Option String
  source_score? : Option ℚ
  recency_score? : Option ℚ
  structure_score? : Option ℚ
  consistency_score? : Option ℚ
  deriving DecidableEq, Repr

/-- The record with every recognized key absent. -/
def Record.empty : Record := ⟨none, none, none, none, none, none, none, none, none⟩

/-- `ExecutionConfig` (executor.py). -/
structure ExecutionConfig where
  minimum_quality : ℚ
  main_threshold : ℚ
  deriving DecidableEq, Repr

/-- The default `ExecutionConfig()` (executor.py). -/
def ExecutionConfig.default : ExecutionConfig := ⟨1/2, 7/10⟩

/-- `PlanExecutor._meta_from_record` (executor.py): use the record's own
`meta` mapping when present, otherwise per-field defaults (`source_score`
defaults to 0.3 for the opinion layer, else 0.6). -/
def meta_from_record (record : Record) (layer : DataLayer) : SourceMeta :=
  match record.meta? with
  | some m => ⟨m.source_id, layer, m.source_score, m.recency_score,
      m.structure_score, m.consistency_score⟩
  | none =>
      ⟨record.source_id?.getD "unknown", layer,
        record.source_score?.getD (if layer = .opinion then 3/10 else 6/10),
        record.recency_score?.getD (8/10),
        record.structure_score?.getD (7/10),
        record.consistency_score?.getD (6/10)⟩

/-- A tool runner: the injected collaborator, mapping a tool name and its
arguments to the returned records. -/
def ToolRunner : Type := String → List (String × JsonVal) → List Record

/-- `PlanExecutor.execute` (executor.py): call each task's tool in plan
order, attach layer/quality metadata, discard records whose quality score
is below `minimum_quality`, and bucket survivors by tool name. -/
def execute (runner : ToolRunner) (config : ExecutionConfig)
    (plan : DailyStockReportPlan) : DailyStockReportData where
  date := plan.date
  collected := plan.tasks.foldl (fun acc task =>
    let records := runner task.tool task.args
    let layer := layer_for_tool task.tool
    records.foldl (fun acc record =>
      let meta := meta_from_record record layer
      if meta.quality_score < config.minimum_quality then acc
      else addBlock acc task.tool
        ⟨record.title?.getD task.tool, record.body?.getD "", meta,
          record.tags?.getD []⟩) acc) []

/-! ## report.py: placeholder report assembly -/

/-- `ReportBuilder._blocks_by_layer` (report.py): all collected blocks of a
layer, across buckets in insertion order. -/
def blocks_by_layer (data : DailyStockReportData) (layer : DataLayer) :
    List ContentBlock :=
  data.collected.flatMap (fun kv => kv.2.filter (fun b => b.meta.layer = layer))

/-- The fixed layer display order with headings (report.py,
`build_placeholder_report`). -/
def layerOrdering : List (DataLayer × String) :=
  [ (.price, "지수/섹터"), (.disclosure, "공시/기업 이벤트"), (.macroLayer, "거시/정책"),
    (.news, "뉴스/해석"), (.opinion, "시장 심리") ]

/-- The static caution string attached to the opinion section. -/
def opinionCaution : String := "커뮤니티 데이터로 신뢰도가 낮을 수 있습니다."

/-- One iteration of the `build_placeholder_report` loop: `none` when the
layer has no blocks and is skipped. -/
def sectionFor (data : DailyStockReportData) (entry : DataLayer × String) :
    Option ReportSection :=
  let layer_blocks := blocks_by_layer data entry.1
  if layer_blocks.isEmpty then none
  else some
    { heading := entry.2
      summary := String.intercalate "; " (layer_blocks.map (·.title))
      details := layer_blocks.map (·.body)
      caution := if entry.1 = .opinion then some opinionCaution else none
      layer := entry.1 }

/-- `ReportBuilder.build_placeholder_report` (report.py). -/
def build_placeholder_report (data : DailyStockReportData) :
    DailyStockReportOutput where
  date := data.date
  sections := layerOrdering.filterMap (sectionFor data)
  raw_data := data

/-! ## Statement helpers -/

/-- Rank of a quality band: `discard < support < main`. -/
def bandRank (band : String) : ℕ :=
  if band = "main" then 2 else if band = "support" then 1 else 0

/-- Extensional equality of two Python dicts (same lookup on every key). -/
def dictEquiv (a b : List (String × JsonVal)) : Prop :=
  ∀ k, dlookup a k = dlookup b k

/-- The `args` mapping a raw task dict supplies: the value under `"args"`
when it is a dict, or the empty dict when the key is absent. -/
def rawArgs (kvs args : List (String × JsonVal)) : Prop :=
  dlookup kvs "args" = some (.obj args) ∨ (dlookup kvs "args" = none ∧ args = [])

/-- A raw task the compiler drops silently: a dict whose tool entry is
falsy (absent, `None`, `False`, `0`, or an empty string/list/dict), a
truthy hashable non-string (a bool or number), or a string outside the
whitelist. A truthy list or dict tool value is *not* in this class: there
the membership test raises `TypeError: unhashable type` instead. -/
def droppedRawTask (item : JsonVal) : Prop :=
  ∃ kvs, item = JsonVal.obj kvs ∧
    (¬ pyTruthy (pyGet kvs "tool") = true
      ∨ (∃ b, pyGet kvs "tool" = JsonVal.bool b)
      ∨ (∃ n, pyGet kvs "tool" = JsonVal.num n)
      ∨ ∃ s, pyGet kvs "tool" = JsonVal.str s ∧ s ∉ ALLOWED_TOOLS)

/-- The blocks one task contributes to the dataset: its tool's records,
kept exactly when their quality score reaches `minimum_quality`, wrapped
with the defaulted title/body/tags. -/
def kept_blocks (runner : ToolRunner) (config : ExecutionConfig)
    (task : TaskPlan) : List ContentBlock :=
  (runner task.tool task.args).filterMap (fun record =>
    let meta := meta_from_record record (layer_for_tool task.tool)
    if config.minimum_quality ≤ meta.quality_score then
      some ⟨record.title?.getD task.tool, record.body?.getD "", meta,
        record.tags?.getD []⟩
    else none)

/-- Append blocks to an optional bucket, materializing it when it receives
its first block. -/
def optAppend (o : Option (List ContentBlock)) (bs : List ContentBlock) :
    Option (List ContentBlock) :=
  match o, bs with
  | none, [] => none
  | o, bs => some (o.getD [] ++ bs)

/-- The compiled form of the fallback cue tasks (default `limit` merged
under the caller-supplied args, caller values winning). -/
def compiledCueTasks (cues : List String) : List TaskPlan :=
  cues.flatMap (fun cue =>
    [ ⟨"search_kr_stock_news", [("limit", .num 5), ("query", .str cue)],
        .str (cue ++ " 뉴스 보강")⟩,
      ⟨"get_forum_sentiment", [("topics", .arr [.str cue])],
        .str (cue ++ " 커뮤니티 심리")⟩ ])

/-- The plan `LLMPlanBuilder.build` produces when no planner client is
configured (equivalently, after falling back). -/
def fallbackCompiled (target_date : String) (cues : List String) :
    DailyStockReportPlan :=
  if cues.isEmpty then enrich_plan (build_base_plan target_date) []
  else
    ⟨target_date, (build_base_plan target_date).tasks ++ compiledCueTasks cues,
      BASE_TASKS, .str (String.intercalate ", " cues)⟩

/-! ## Rounding lemmas -/

theorem floor_le_roundHalfEven (q : ℚ) : ⌊q⌋ ≤ roundHalfEven q := by
  unfold roundHalfEven
  split_ifs <;> omega

theorem roundHalfEven_le_floor_add_one (q : ℚ) : roundHalfEven q ≤ ⌊q⌋ + 1 := by
  unfold roundHalfEven
  split_ifs <;> omega

theorem roundHalfEven_mono {x y : ℚ} (h : x ≤ y) :
    roundHalfEven x ≤ roundHalfEven y := by
  rcases eq_or_lt_of_le (Int.floor_le_floor h) with hf | hf
  · unfold roundHalfEven
    rw [← hf]
    have hxy : x - (⌊x⌋ : ℚ) ≤ y - (⌊x⌋ : ℚ) := by linarith
    split_ifs <;> first | omega | (exfalso; linarith)
  · calc roundHalfEven x ≤ ⌊x⌋ + 1 := roundHalfEven_le_floor_add_one x
      _ ≤ ⌊y⌋ := by omega
      _ ≤ roundHalfEven y := floor_le_roundHalfEven y

theorem roundHalfEven_intCast (z : ℤ) : roundHalfEven (z : ℚ) = z := by
  unfold roundHalfEven
  rw [Int.floor_intCast, sub_self]
  rw [if_pos (by norm_num : (0 : ℚ) < 1/2)]

theorem pyRound3_mono {x y : ℚ} (h : x ≤ y) : pyRound3 x ≤ pyRound3 y := by
  unfold pyRound3
  have h1 : roundHalfEven (x * 1000) ≤ roundHalfEven (y * 1000) :=
    roundHalfEven_mono (by linarith)
  have h2 : ((roundHalfEven (x * 1000) : ℤ) : ℚ)
      ≤ ((roundHalfEven (y * 1000) : ℤ) : ℚ) := by exact_mod_cast h1
  linarith

theorem pyRound3_eq_self {x : ℚ} {z : ℤ} (hz : x * 1000 = (z : ℚ)) :
    pyRound3 x = x := by
  unfold pyRound3
  rw [hz, roundHalfEven_intCast]
  have h1000 : (1000 : ℚ) ≠ 0 := by norm_num
  field_simp
  linarith

/-! ## Quality model: C3, C4, C5 -/

/-- C3: for every `SourceMeta` with the four sub-scores in `[0, 1]`,
`quality_score` equals the weighted sum
`0.35*source + 0.25*recency + 0.2*structure + 0.2*consistency` rounded to
3 decimals; with all four sub-scores `1.0` it returns `1.0`, and with all
four `0.0` it returns `0.0`. -/
theorem quality_score_is_rounded_weighted_sum (sid : String) (layer : DataLayer)
    (s r st c : ℚ)
    (hs0 : 0 ≤ s) (hs1 : s ≤ 1) (hr0 : 0 ≤ r) (hr1 : r ≤ 1)
    (hst0 : 0 ≤ st) (hst1 : st ≤ 1) (hc0 : 0 ≤ c) (hc1 : c ≤ 1) :
    (SourceMeta.mk sid layer s r st c).quality_score
        = pyRound3 ((35/100) * s + (25/100) * r + (2/10) * st + (2/10) * c)
      ∧ (SourceMeta.mk sid layer 1 1 1 1).quality_score = 1
      ∧ (SourceMeta.mk sid layer 0 0 0 0).quality_score = 0 := by
  refine ⟨?_, ?_, ?_⟩
  · show pyRound3 (s * (35/100) + r * (25/100) + st * (2/10) + c * (2/10)) = _
    congr 1
    ring
  · show pyRound3 ((1:ℚ) * (35/100) + 1 * (25/100) + 1 * (2/10) + 1 * (2/10)) = 1
    have h1 : (1:ℚ) * (35/100) + 1 * (25/100) + 1 * (2/10) + 1 * (2/10) = 1 := by
      norm_num
    rw [h1]
    exact pyRound3_eq_self (z := 1000) (by norm_num)
  · show pyRound3 ((0:ℚ) * (35/100) + 0 * (25/100) + 0 * (2/10) + 0 * (2/10)) = 0
    have h0 : (0:ℚ) * (35/100) + 0 * (25/100) + 0 * (2/10) + 0 * (2/10) = 0 := by
      norm_num
    rw [h0]
    exact pyRound3_eq_self (z := 0) (by norm_num)

/-- Witness for C3 at concrete sub-scores `1/2`. -/
theorem quality_score_is_rounded_weighted_sum_witness :
    (SourceMeta.mk "s" DataLayer.news (1/2) (1/2) (1/2) (1/2)).quality_score
        = pyRound3 ((35/100) * (1/2) + (25/100) * (1/2) + (2/10) * (1/2)
            + (2/10) * (1/2))
      ∧ (SourceMeta.mk "s" DataLayer.news 1 1 1 1).quality_score = 1
      ∧ (SourceMeta.mk "s" DataLayer.news 0 0 0 0).quality_score = 0 :=
  quality_score_is_rounded_weighted_sum "s" DataLayer.news (1/2) (1/2) (1/2) (1/2)
    (by norm_num) (by norm_num) (by norm_num) (by norm_num)
    (by norm_num) (by norm_num) (by norm_num) (by norm_num)

/-- Monotone band rank, a helper for the band half of C4. -/
theorem bandRank_mono_of_quality_le (a b : SourceMeta) (t1 t2 : ℚ)
    (h : a.quality_score ≤ b.quality_score) :
    bandRank (a.quality_band t1 t2) ≤ bandRank (b.quality_band t1 t2) := by
  unfold SourceMeta.quality_band
  split_ifs <;> first | (exfalso; linarith) | decide

/-- C4: `quality_score` is monotone non-decreasing in each sub-score
(stated jointly: raising any combination of sub-scores, in particular any
single one, never lowers the composite), and for fixed thresholds the
resulting `quality_band` never moves downward
(`discard` < `support` < `main`). -/
theorem quality_score_band_monotone (sid sid' : String) (layer layer' : DataLayer)
    (t1 t2 s r st c s' r' st' c' : ℚ)
    (hs : s ≤ s') (hr : r ≤ r') (hst : st ≤ st') (hc : c ≤ c') :
    (SourceMeta.mk sid layer s r st c).quality_score
        ≤ (SourceMeta.mk sid' layer' s' r' st' c').quality_score
      ∧ bandRank ((SourceMeta.mk sid layer s r st c).quality_band t1 t2)
        ≤ bandRank ((SourceMeta.mk sid' layer' s' r' st' c').quality_band t1 t2) := by
  have hq : (SourceMeta.mk sid layer s r st c).quality_score
      ≤ (SourceMeta.mk sid' layer' s' r' st' c').quality_score := by
    show pyRound3 _ ≤ pyRound3 _
    exact pyRound3_mono (by linarith)
  exact ⟨hq, bandRank_mono_of_quality_le _ _ t1 t2 hq⟩

/-- Witness for C4: raising the source sub-score from `0.1` to `0.9`. -/
theorem quality_score_band_monotone_witness :
    (SourceMeta.mk "a" DataLayer.news (1/10) (1/2) (1/2) (1/2)).quality_score
        ≤ (SourceMeta.mk "a" DataLayer.news (9/10) (1/2) (1/2) (1/2)).quality_score
      ∧ bandRank ((SourceMeta.mk "a" DataLayer.news (1/10) (1/2) (1/2) (1/2)).quality_band
            (7/10) (1/2))
        ≤ bandRank ((SourceMeta.mk "a" DataLayer.news (9/10) (1/2) (1/2) (1/2)).quality_band
            (7/10) (1/2)) :=
  quality_score_band_monotone "a" "a" DataLayer.news DataLayer.news (7/10) (1/2)
    (1/10) (1/2) (1/2) (1/2) (9/10) (1/2) (1/2) (1/2)
    (by norm_num) (by norm_num) (by norm_num) (by norm_num)

/-- C5: `quality_band` returns exactly one of the three labels, with `≥`
comparisons at each boundary: `main` iff `score ≥ main_threshold`,
`support` iff `minimum_quality ≤ score < main_threshold`, `discard`
otherwise; with thresholds `0.7`/`0.5`, a score of `0.7` yields `main`,
`0.699` yields `support`, and `0.499` yields `discard`. -/
theorem quality_band_cases (m : SourceMeta) (t1 t2 : ℚ) :
    (m.quality_band t1 t2 = "main" ∨ m.quality_band t1 t2 = "support"
        ∨ m.quality_band t1 t2 = "discard")
      ∧ (m.quality_band t1 t2 = "main" ↔ t1 ≤ m.quality_score)
      ∧ (m.quality_band t1 t2 = "support"
          ↔ t2 ≤ m.quality_score ∧ m.quality_score < t1)
      ∧ (m.quality_band t1 t2 = "discard"
          ↔ m.quality_score < t1 ∧ m.quality_score < t2)
      ∧ (SourceMeta.mk "m" DataLayer.news (7/10) (7/10) (7/10) (7/10)).quality_band
          (7/10) (1/2) = "main"
      ∧ (SourceMeta.mk "m" DataLayer.news (699/1000) (699/1000) (699/1000)
          (699/1000)).quality_band (7/10) (1/2) = "support"
      ∧ (SourceMeta.mk "m" DataLayer.news (499/1000) (499/1000) (499/1000)
          (499/1000)).quality_band (7/10) (1/2) = "discard" := by
  refine ⟨?_, ?_, ?_, ?_, ?_, ?_, ?_⟩
  · unfold SourceMeta.quality_band
    split_ifs <;> simp
  · unfold SourceMeta.quality_band
    split_ifs with h1 h2 <;> simp_all
  · unfold SourceMeta.quality_band
    split_ifs with h1 h2 <;> simp_all
  · unfold SourceMeta.quality_band
    split_ifs with h1 h2 <;> simp_all
  · unfold SourceMeta.quality_band SourceMeta.quality_score pyRound3 roundHalfEven
    norm_num
  · unfold SourceMeta.quality_band SourceMeta.quality_score pyRound3 roundHalfEven
    norm_num
  · unfold SourceMeta.quality_band SourceMeta.quality_score pyRound3 roundHalfEven
    norm_num

/-! ## Dict lemmas -/

theorem dlookup_cons (k' : String) (v : JsonVal)
    (rest : List (String × JsonVal)) (k : String) :
    dlookup ((k', v) :: rest) k = if k' = k then some v else dlookup rest k := rfl

theorem dlookup_append (l1 l2 : List (String × JsonVal)) (k : String) :
    dlookup (l1 ++ l2) k = (dlookup l1 k).orElse (fun _ => dlookup l2 k) := by
  induction l1 with
  | nil => rfl
  | cons kv rest ih =>
      obtain ⟨k', v⟩ := kv
      by_cases h : k' = k <;> simp [dlookup_cons, h, ih, Option.orElse]

theorem dlookup_map_override (a b : List (String × JsonVal)) (k : String) :
    dlookup (a.map (fun kv => (kv.1, (dlookup b kv.1).getD kv.2))) k
      = (dlookup a k).map (fun v => (dlookup b k).getD v) := by
  induction a with
  | nil => rfl
  | cons kv rest ih =>
      obtain ⟨k', v⟩ := kv
      by_cases h : k' = k
      · subst h
        simp [dlookup_cons]
      · simp [dlookup_cons, h, ih]

theorem dlookup_filter_new (a b : List (String × JsonVal)) (k : String) :
    dlookup (b.filter (fun kv => (dlookup a kv.1).isNone)) k
      = if (dlookup a k).isNone then dlookup b k else none := by
  induction b with
  | nil => simp [dlookup]
  | cons kv rest ih =>
      obtain ⟨k', v⟩ := kv
      by_cases h : k' = k
      · subst h
        cases hg : (dlookup a k').isNone <;>
          simp [List.filter_cons, hg, dlookup_cons, ih]
      · cases hg : (dlookup a k').isNone <;>
          simp [List.filter_cons, hg, dlookup_cons, h, ih]

/-- The defining property of the Python merge `{**a, **b}`: lookups prefer
`b` and fall back to `a`. -/
theorem dlookup_mergeDicts (a b : List (String × JsonVal)) (k : String) :
    dlookup (mergeDicts a b) k
      = (dlookup b k).orElse (fun _ => dlookup a k) := by
  unfold mergeDicts
  rw [dlookup_append, dlookup_map_override, dlookup_filter_new]
  cases h1 : dlookup a k <;> cases h2 : dlookup b k <;> simp [Option.orElse]

/-! ## Plan compiler lemmas -/

/-- Inversion for a raw task the compiler keeps. -/
theorem compileItem_ok_some {item : JsonVal} {t : TaskPlan}
    (h : compileItem item = .ok (some t)) :
    ∃ kvs args, item = JsonVal.obj kvs
      ∧ pyGet kvs "tool" = JsonVal.str t.tool
      ∧ t.tool ∈ ALLOWED_TOOLS
      ∧ rawArgs kvs args
      ∧ t.args = mergeDicts (defaultToolArgs t.tool) args
      ∧ t.purpose = pyGet kvs "purpose" := by
  cases item with
  | obj kvs =>
      simp only [compileItem] at h
      rcases htv : pyGet kvs "tool" with _ | b | n | s | xs | kvs' <;> rw [htv] at h <;>
        simp only [pyTruthy] at h
      case null => simp at h
      case bool => split_ifs at h <;> simp at h
      case num => split_ifs at h <;> simp at h
      case arr => split_ifs at h <;> simp at h
      case obj => split_ifs at h <;> simp at h
      case str =>
        split_ifs at h with h1 h2
        · simp at h
        · rcases hargs : dlookup kvs "args" with _ | av
          · rw [hargs] at h
            simp only [Except.ok.injEq, Option.some.injEq] at h
            subst h
            refine ⟨kvs, [], rfl, htv, by simpa using h2, Or.inr ⟨hargs, rfl⟩, rfl, rfl⟩
          · rcases av with _ | b' | n' | s' | xs' | akvs <;> rw [hargs] at h <;>
              try simp at h
            subst h
            refine ⟨kvs, akvs, rfl, htv, by simpa using h2, Or.inl hargs, rfl, rfl⟩
        · simp at h
  | null => simp [compileItem] at h
  | bool b => simp [compileItem] at h
  | num n => simp [compileItem] at h
  | str s => simp [compileItem] at h
  | arr xs => simp [compileItem] at h

/-- A raw task with a missing, non-string, empty, or non-whitelisted tool
name compiles to nothing (and raises nothing). -/
theorem compileItem_of_dropped {item : JsonVal} (h : droppedRawTask item) :
    compileItem item = .ok none := by
  obtain ⟨kvs, rfl, hcase⟩ := h
  simp only [compileItem]
  rcases hcase with hf | ⟨b, hb⟩ | ⟨n, hn⟩ | ⟨s, hs, hnm⟩
  · have hfalse : pyTruthy (pyGet kvs "tool") = false := by
      revert hf
      cases pyTruthy (pyGet kvs "tool") <;> simp
    rw [hfalse]
    rfl
  · rw [hb]
    cases b <;> rfl
  · rw [hn]
    simp only [pyTruthy]
    split_ifs <;> rfl
  · rw [hs]
    simp only [pyTruthy]
    have hc : ALLOWED_TOOLS.contains s = false := by
      simpa using hnm
    split_ifs with h1 h2
    · rfl
    · exact absurd (hc ▸ h2) Bool.false_ne_true
    · rfl

theorem compileItems_cons (item : JsonVal) (rest : List JsonVal) :
    compileItems (item :: rest)
      = match compileItem item with
        | .error e => .error e
        | .ok hd =>
            match compileItems rest with
            | .error e => .error e
            | .ok tl => .ok (match hd with | none => tl | some t => t :: tl) := rfl

/-- Dropping a silently-rejected raw task anywhere in the list does not
change the compiled result. -/
theorem compileItems_drop {bad : JsonVal} (h : droppedRawTask bad) :
    ∀ (pre post : List JsonVal),
      compileItems (pre ++ bad :: post) = compileItems (pre ++ post) := by
  intro pre post
  induction pre with
  | nil =>
      show compileItems (bad :: post) = compileItems post
      rw [compileItems_cons, compileItem_of_dropped h]
      cases hp : compileItems post <;> rfl
  | cons x rest ih =>
      show compileItems (x :: (rest ++ bad :: post)) = compileItems (x :: (rest ++ post))
      rw [compileItems_cons, compileItems_cons, ih]

/-- Every compiled task comes from a kept raw dict and carries the merged
arguments, with the raw task's values winning on key collision. -/
theorem compileItems_sound {items : List JsonVal} {ts : List TaskPlan}
    (h : compileItems items = .ok ts) :
    ∀ t ∈ ts, t.tool ∈ ALLOWED_TOOLS
      ∧ ∃ kvs args, JsonVal.obj kvs ∈ items
          ∧ pyGet kvs "tool" = JsonVal.str t.tool
          ∧ rawArgs kvs args
          ∧ ∀ k, dlookup t.args k
              = (dlookup args k).orElse
                  (fun _ => dlookup (defaultToolArgs t.tool) k) := by
  induction items generalizing ts with
  | nil =>
      unfold compileItems at h
      simp only [Except.ok.injEq] at h
      subst h
      intro t ht
      simp at ht
  | cons item rest ih =>
      unfold compileItems at h
      rcases hi : compileItem item with e | hd <;> rw [hi] at h
      · simp at h
      · rcases hr : compileItems rest with e | tl <;> rw [hr] at h
        · simp at h
        · simp only [Except.ok.injEq] at h
          subst h
          intro t ht
          rcases hd with _ | t0
          · obtain ⟨hmem, hrest⟩ := ih hr t ht
            exact ⟨hmem, hrest.imp (fun kvs hk =>
              hk.imp (fun args ha => ⟨List.mem_cons_of_mem _ ha.1, ha.2⟩))⟩
          · rcases List.mem_cons.mp ht with rfl | ht'
            · obtain ⟨kvs, args, rfl, htool, hmem, hargs, hargeq, -⟩ :=
                compileItem_ok_some hi
              refine ⟨hmem, kvs, args, List.mem_cons_self _ _, htool, hargs, ?_⟩
              intro k
              rw [hargeq, dlookup_mergeDicts]
            · obtain ⟨hmem, hrest⟩ := ih hr t ht'
              exact ⟨hmem, hrest.imp (fun kvs hk =>
                hk.imp (fun args ha => ⟨List.mem_cons_of_mem _ ha.1, ha.2⟩))⟩

/-! ## C6: compile_tasks whitelist and argument merge -/

/-- C6: `PlanCompiler.compile_tasks` emits no task whose tool name is
missing or outside the whitelist, and every emitted task's args equal the
per-tool default-argument template merged with the raw task's args, the
raw task's values winning on key collision. The silent drop (no trace in
the compiled list) holds exactly for `droppedRawTask` items — a falsy,
bool, number, or non-whitelisted-string tool value; a raw task whose tool
value is a truthy list or dict is not dropped: the whitelist membership
test raises `TypeError: unhashable type` there, as the third conjunct
records at a concrete input. -/
theorem compile_tasks_whitelist_and_arg_merge :
    (∀ (items : List JsonVal) (ts : List TaskPlan),
      compileItems items = .ok ts →
      ∀ t ∈ ts, t.tool ∈ ALLOWED_TOOLS
        ∧ ∃ kvs args, JsonVal.obj kvs ∈ items
            ∧ pyGet kvs "tool" = JsonVal.str t.tool
            ∧ rawArgs kvs args
            ∧ ∀ k, dlookup t.args k
                = (dlookup args k).orElse
                    (fun _ => dlookup (defaultToolArgs t.tool) k))
    ∧ (∀ (pre post : List JsonVal) (bad : JsonVal), droppedRawTask bad →
        compileItems (pre ++ bad :: post) = compileItems (pre ++ post))
    ∧ compileItems [JsonVal.obj [("tool", JsonVal.arr [JsonVal.str "x"])]]
        = .error "TypeError: unhashable type: list" :=
  ⟨fun _ _ h => compileItems_sound h,
    fun pre post _ h => compileItems_drop h pre post, rfl⟩

/-- Witness for C6: a kept `get_top_sectors` task whose caller-supplied
`limit` overrides the default, next to a silently dropped non-whitelisted
tool. -/
theorem compile_tasks_whitelist_and_arg_merge_witness :
    ((⟨"get_top_sectors", [("limit", JsonVal.num 9)], JsonVal.null⟩ : TaskPlan).tool
        ∈ ALLOWED_TOOLS
      ∧ ∃ kvs args,
          JsonVal.obj kvs
              ∈ [JsonVal.obj [("tool", JsonVal.str "get_top_sectors"),
                  ("args", JsonVal.obj [("limit", JsonVal.num 9)])]]
            ∧ pyGet kvs "tool"
                = JsonVal.str (⟨"get_top_sectors", [("limit", JsonVal.num 9)],
                    JsonVal.null⟩ : TaskPlan).tool
            ∧ rawArgs kvs args
            ∧ ∀ k, dlookup (⟨"get_top_sectors", [("limit", JsonVal.num 9)],
                    JsonVal.null⟩ : TaskPlan).args k
                = (dlookup args k).orElse
                    (fun _ => dlookup (defaultToolArgs "get_top_sectors") k))
    ∧ compileItems
        [JsonVal.obj [("tool", JsonVal.str "get_top_sectors"),
            ("args", JsonVal.obj [("limit", JsonVal.num 9)])],
          JsonVal.obj [("tool", JsonVal.str "fetch_evil")]]
      = compileItems
          [JsonVal.obj [("tool", JsonVal.str "get_top_sectors"),
              ("args", JsonVal.obj [("limit", JsonVal.num 9)])]] := by
  constructor
  · exact compile_tasks_whitelist_and_arg_merge.1
      [JsonVal.obj [("tool", JsonVal.str "get_top_sectors"),
        ("args", JsonVal.obj [("limit", JsonVal.num 9)])]]
      [⟨"get_top_sectors", [("limit", JsonVal.num 9)], JsonVal.null⟩]
      rfl _ (List.mem_singleton.mpr rfl)
  · have hlast : compileItems
        ([JsonVal.obj [("tool", JsonVal.str "get_top_sectors"),
            ("args", JsonVal.obj [("limit", JsonVal.num 9)])]]
          ++ JsonVal.obj [("tool", JsonVal.str "fetch_evil")] :: [])
        = compileItems
            ([JsonVal.obj [("tool", JsonVal.str "get_top_sectors"),
                ("args", JsonVal.obj [("limit", JsonVal.num 9)])]] ++ []) :=
      compile_tasks_whitelist_and_arg_merge.2.1 _ []
        (JsonVal.obj [("tool", JsonVal.str "fetch_evil")])
        ⟨[("tool", JsonVal.str "fetch_evil")], rfl,
          Or.inr (Or.inr (Or.inr ⟨"fetch_evil", rfl, by decide⟩))⟩
    simpa using hlast

/-! ## C1: mandatory base tools appear exactly once after merging -/

/-- C1: for every raw plan that compiles against the baseline plan of
`build_base_plan`, each mandatory base tool name occurs exactly once among
the merged tasks; a non-mandatory tool such as `search_kr_stock_news` may
occur several times with different arguments. -/
theorem merge_with_base_mandatory_once :
    (∀ (d : String) (raw : JsonVal) (p : DailyStockReportPlan),
      merge_with_base d (build_base_plan d) raw = .ok p →
      ∀ t ∈ BASE_TASKS, p.tasks.countP (fun task => task.tool == t) = 1)
    ∧ (∃ p, merge_with_base "2024-01-02" (build_base_plan "2024-01-02")
          (JsonVal.obj [("tasks", JsonVal.arr
            [JsonVal.obj [("tool", JsonVal.str "search_kr_stock_news"),
                ("args", JsonVal.obj [("query", JsonVal.str "코스닥")])],
              JsonVal.obj [("tool", JsonVal.str "search_kr_stock_news"),
                ("args", JsonVal.obj [("query", JsonVal.str "밸류업")])]])])
        = .ok p
        ∧ p.tasks.countP (fun task => task.tool == "search_kr_stock_news") = 2
        ∧ (p.tasks.filter (fun task => task.tool == "search_kr_stock_news")).map
            (fun task => dlookup task.args "query")
          = [some (JsonVal.str "코스닥"), some (JsonVal.str "밸류업")]
        ∧ JsonVal.str "코스닥" ≠ JsonVal.str "밸류업") := by
  constructor
  · intro d raw p h t ht
    cases raw with
    | obj kvs =>
        simp only [merge_with_base] at h
        rcases hx : compile_tasks ((dlookup kvs "tasks").getD (.arr [])) with e | extra <;>
          rw [hx] at h
        · simp at h
        · simp only [Except.ok.injEq] at h
          subst h
          rw [List.countP_append]
          simp only [BASE_TASKS, List.mem_cons, List.mem_singleton,
            List.not_mem_nil, or_false] at ht
          have hextra : (extra.filter (fun task =>
              !(((build_base_plan d).tasks.map (·.tool)).contains task.tool
                && BASE_TASKS.contains task.tool))).countP
                (fun task => task.tool == t) = 0 := by
            rw [List.countP_eq_zero]
            intro a ha hta
            rw [List.mem_filter] at ha
            obtain ⟨-, hf⟩ := ha
            rw [eq_of_beq hta] at hf
            rw [show (build_base_plan d).tasks.map (fun x => x.tool) = BASE_TASKS
              from rfl] at hf
            rcases ht with rfl | rfl | rfl <;> exact absurd hf (by decide)
          rw [hextra]
          rcases ht with rfl | rfl | rfl <;> rfl
    | null => simp [merge_with_base] at h
    | bool b => simp [merge_with_base] at h
    | num n => simp [merge_with_base] at h
    | str s => simp [merge_with_base] at h
    | arr xs => simp [merge_with_base] at h
  · refine ⟨_, rfl, rfl, rfl, by simp⟩

/-- Witness for C1 at the empty raw plan. -/
theorem merge_with_base_mandatory_once_witness :
    merge_with_base "2024-01-02" (build_base_plan "2024-01-02") (JsonVal.obj [])
        = .ok (DailyStockReportPlan.mk "2024-01-02"
            (build_base_plan "2024-01-02").tasks BASE_TASKS JsonVal.null)
      ∧ "get_index_snapshot" ∈ BASE_TASKS
      ∧ (DailyStockReportPlan.mk "2024-01-02" (build_base_plan "2024-01-02").tasks
          BASE_TASKS JsonVal.null).tasks.countP
            (fun task => task.tool == "get_index_snapshot") = 1 :=
  ⟨rfl, by decide,
    merge_with_base_mandatory_once.1 "2024-01-02" (JsonVal.obj []) _ rfl
      "get_index_snapshot" (by decide)⟩

/-! ## Fallback plan compilation (shared by C2 and C8) -/

theorem dictEquiv_refl (a : List (String × JsonVal)) : dictEquiv a a :=
  fun _ => rfl

theorem dictEquiv_swap (k1 k2 : String) (v1 v2 : JsonVal) (hne : k1 ≠ k2) :
    dictEquiv [(k1, v1), (k2, v2)] [(k2, v2), (k1, v1)] := by
  intro k
  by_cases h1 : k1 = k
  · subst h1
    rw [dlookup_cons, if_pos rfl, dlookup_cons, if_neg (Ne.symm hne),
      dlookup_cons, if_pos rfl]
  · by_cases h2 : k2 = k <;>
      simp [dlookup_cons, h1, h2]

theorem compileItems_cueTasks (cues : List String) :
    compileItems (cue_tasks cues) = .ok (compiledCueTasks cues) := by
  induction cues with
  | nil => rfl
  | cons c rest ih =>
      show compileItems (_ :: _ :: cue_tasks rest) = _
      rw [compileItems_cons, compileItems_cons, ih]
      rfl

theorem compiledCueTasks_filter (d : String) (cues : List String) :
    (compiledCueTasks cues).filter (fun task =>
      !(((build_base_plan d).tasks.map (·.tool)).contains task.tool
        && BASE_TASKS.contains task.tool)) = compiledCueTasks cues := by
  apply List.filter_eq_self.mpr
  intro t ht
  unfold compiledCueTasks at ht
  rw [List.mem_flatMap] at ht
  obtain ⟨cue, -, hmem⟩ := ht
  simp only [List.mem_cons, List.not_mem_nil, or_false] at hmem
  rcases hmem with rfl | rfl
  · exact (by decide :
      (!(BASE_TASKS.contains "search_kr_stock_news"
        && BASE_TASKS.contains "search_kr_stock_news")) = true)
  · exact (by decide :
      (!(BASE_TASKS.contains "get_forum_sentiment"
        && BASE_TASKS.contains "get_forum_sentiment")) = true)

theorem merge_with_base_fallback (d : String) (c : String) (rest : List String) :
    merge_with_base d (build_base_plan d) (fallback_plan d (c :: rest))
      = .ok ⟨d, (build_base_plan d).tasks ++ compiledCueTasks (c :: rest),
          BASE_TASKS, .str (String.intercalate ", " (c :: rest))⟩ := by
  have hraw : fallback_plan d (c :: rest) = JsonVal.obj
      [("date", JsonVal.str d),
        ("tasks", JsonVal.arr (cue_tasks (c :: rest))),
        ("enrichment_reason", JsonVal.str (String.intercalate ", " (c :: rest)))] := rfl
  rw [hraw]
  simp only [merge_with_base]
  have h1 : compile_tasks ((dlookup
      [("date", JsonVal.str d),
        ("tasks", JsonVal.arr (cue_tasks (c :: rest))),
        ("enrichment_reason", JsonVal.str (String.intercalate ", " (c :: rest)))] "tasks").getD
        (JsonVal.arr []))
      = compileItems (cue_tasks (c :: rest)) := rfl
  rw [h1, compileItems_cueTasks]
  dsimp only
  rw [compiledCueTasks_filter]
  rfl

/-- With no planner client configured, `build` returns the compiled
fallback plan, with no error. -/
theorem build_noclient (d : String) (cues : List String) :
    build none d cues = .ok (fallbackCompiled d cues) := by
  cases cues with
  | nil => rfl
  | cons c rest =>
      unfold build
      dsimp only
      rw [merge_with_base_fallback]
      rfl

theorem compiledCueTasks_forall₂ (cues : List String) :
    List.Forall₂ (fun (a b : TaskPlan) => a.tool = b.tool ∧ dictEquiv a.args b.args)
      (compiledCueTasks cues)
      (cues.flatMap (fun cue =>
        [ ⟨"search_kr_stock_news", [("query", .str cue), ("limit", .num 5)],
            .str (cue ++ " 관련 뉴스 보강")⟩,
          ⟨"get_forum_sentiment", [("topics", .arr [.str cue])],
            .str (cue ++ " 시장 심리")⟩ ])) := by
  induction cues with
  | nil => exact List.Forall₂.nil
  | cons c rest ih =>
      show List.Forall₂ _ (_ :: _ :: compiledCueTasks rest) (_ :: _ :: _)
      exact List.Forall₂.cons
        ⟨rfl, dictEquiv_swap "limit" "query" (.num 5) (.str c) (by decide)⟩
        (List.Forall₂.cons ⟨rfl, dictEquiv_refl _⟩ ih)

/-! ## C8: no-planner build equals cue enrichment -/

/-- C8: with no planner client configured, `build` succeeds and yields the
same sequence of (tool, args) pairs as
`enrich_plan (build_base_plan date) cues` — the three baseline tasks
followed by one news-search and one forum-sentiment task per cue — and
with an empty cue list it returns `enrich_plan base_plan []` itself. -/
theorem build_without_client_refines_enrich_plan (d : String) (cues : List String) :
    (∃ p, build none d cues = .ok p
      ∧ List.Forall₂
          (fun (a b : TaskPlan) => a.tool = b.tool ∧ dictEquiv a.args b.args)
          p.tasks (enrich_plan (build_base_plan d) cues).tasks)
    ∧ build none d [] = .ok (enrich_plan (build_base_plan d) []) := by
  constructor
  · refine ⟨fallbackCompiled d cues, build_noclient d cues, ?_⟩
    cases cues with
    | nil =>
        exact List.forall₂_same.mpr (fun x _ => ⟨rfl, dictEquiv_refl _⟩)
    | cons c rest =>
        show List.Forall₂ _
          ((build_base_plan d).tasks ++ compiledCueTasks (c :: rest))
          ((build_base_plan d).tasks ++ _)
        exact List.rel_append
          (List.forall₂_same.mpr (fun x _ => ⟨rfl, dictEquiv_refl _⟩))
          (compiledCueTasks_forall₂ (c :: rest))
  · exact build_noclient d []

/-- Witness for C8 at a concrete date and cue list. -/
theorem build_without_client_refines_enrich_plan_witness :
    build none "2024-01-02" ["밸류업"] = .ok (fallbackCompiled "2024-01-02" ["밸류업"])
      ∧ List.Forall₂
          (fun (a b : TaskPlan) => a.tool = b.tool ∧ dictEquiv a.args b.args)
          (fallbackCompiled "2024-01-02" ["밸류업"]).tasks
          (enrich_plan (build_base_plan "2024-01-02") ["밸류업"]).tasks
      ∧ build none "2024-01-02" []
        = .ok (enrich_plan (build_base_plan "2024-01-02") []) := by
  obtain ⟨⟨p, h1, h2⟩, h3⟩ :=
    build_without_client_refines_enrich_plan "2024-01-02" ["밸류업"]
  have hp : p = fallbackCompiled "2024-01-02" ["밸류업"] := by
    have h4 := h1.symm.trans (build_noclient "2024-01-02" ["밸류업"])
    exact (Except.ok.injEq _ _).mp h4
  exact ⟨build_noclient "2024-01-02" ["밸류업"], hp ▸ h2, h3⟩

/-! ## C2: only JSON-decode failures trigger the fallback -/

/-- C2 counterexample: a planner response that parses as valid JSON but is
not an object (here the JSON document `[]`) makes `build` raise an
uncaught attribute error instead of recovering with the fallback plan. -/
theorem build_raises_on_non_object_response :
    build (some (some (JsonVal.arr []))) "2024-01-02" []
      = .error "AttributeError: object has no attribute get" := rfl

/-- C2 amended: when the configured planner's response fails JSON parsing
(`json.JSONDecodeError`), `build` recovers locally with the deterministic
cue-derived fallback plan, behaving exactly as if no client were
configured and surfacing no failure; responses that parse to a non-object
JSON value (or to an object with malformed task entries) are not
recovered (see the counterexample). -/
theorem build_recovers_on_parse_failure (d : String) (cues : List String) :
    build (some none) d cues = build none d cues
      ∧ build (some none) d cues = .ok (fallbackCompiled d cues) :=
  ⟨rfl, build_noclient d cues⟩

/-! ## Executor lemmas -/

theorem optAppend_nil (o : Option (List ContentBlock)) : optAppend o [] = o := by
  cases o <;> simp [optAppend]

theorem optAppend_cons (o : Option (List ContentBlock)) (b : ContentBlock)
    (bs : List ContentBlock) : optAppend o (b :: bs) = some (o.getD [] ++ b :: bs) := by
  cases o <;> rfl

theorem optAppend_assoc (o : Option (List ContentBlock)) (bs1 bs2 : List ContentBlock) :
    optAppend (optAppend o bs1) bs2 = optAppend o (bs1 ++ bs2) := by
  cases o <;> cases bs1 <;> cases bs2 <;> simp [optAppend]

theorem bucket?_addBlock (c : List (String × List ContentBlock)) (n : String)
    (b : ContentBlock) (m : String) :
    bucket? (addBlock c n b) m
      = if m = n then some ((bucket? c m).getD [] ++ [b]) else bucket? c m := by
  induction c with
  | nil =>
      show (if n = m then some [b] else none)
        = if m = n then some (((none : Option (List ContentBlock))).getD [] ++ [b])
          else none
      by_cases h : n = m
      · rw [if_pos h, if_pos h.symm]
        rfl
      · rw [if_neg h, if_neg (fun hh => h hh.symm)]
  | cons kv rest ih =>
      obtain ⟨k, bs⟩ := kv
      by_cases hk : k = n
      · have ha : addBlock ((k, bs) :: rest) n b = (k, bs ++ [b]) :: rest := by
          simp [addBlock, hk]
        rw [ha]
        by_cases hm : k = m
        · have hmn : m = n := hm.symm.trans hk
          rw [show bucket? ((k, bs ++ [b]) :: rest) m = some (bs ++ [b]) from by
            simp [bucket?, hm]]
          rw [if_pos hmn]
          rw [show bucket? ((k, bs) :: rest) m = some bs from by simp [bucket?, hm]]
          rfl
        · have hmn : ¬ m = n := fun hh => hm (hk.trans hh.symm)
          rw [show bucket? ((k, bs ++ [b]) :: rest) m = bucket? rest m from by
            simp [bucket?, hm]]
          rw [if_neg hmn]
          rw [show bucket? ((k, bs) :: rest) m = bucket? rest m from by simp [bucket?, hm]]
      · have ha : addBlock ((k, bs) :: rest) n b = (k, bs) :: addBlock rest n b := by
          simp [addBlock, hk]
        rw [ha]
        by_cases hm : k = m
        · have hmn : ¬ m = n := fun hh => hk (hm.trans hh)
          rw [show bucket? ((k, bs) :: addBlock rest n b) m = some bs from by
            simp [bucket?, hm]]
          rw [if_neg hmn]
          rw [show bucket? ((k, bs) :: rest) m = some bs from by simp [bucket?, hm]]
        · rw [show bucket? ((k, bs) :: addBlock rest n b) m = bucket? (addBlock rest n b) m
            from by simp [bucket?, hm]]
          rw [ih]
          rw [show bucket? ((k, bs) :: rest) m = bucket? rest m from by simp [bucket?, hm]]

theorem bucket?_records_fold (config : ExecutionConfig) (tool : String)
    (layer : DataLayer) (records : List Record)
    (acc : List (String × List ContentBlock)) (m : String) :
    bucket? (records.foldl (fun acc record =>
        if (meta_from_record record layer).quality_score < config.minimum_quality
        then acc
        else addBlock acc tool
          ⟨record.title?.getD tool, record.body?.getD "",
            meta_from_record record layer, record.tags?.getD []⟩) acc) m
      = if m = tool then
          optAppend (bucket? acc m) (records.filterMap (fun record =>
            if config.minimum_quality ≤ (meta_from_record record layer).quality_score
            then some ⟨record.title?.getD tool, record.body?.getD "",
              meta_from_record record layer, record.tags?.getD []⟩
            else none))
        else bucket? acc m := by
  induction records generalizing acc with
  | nil =>
      by_cases h : m = tool <;> simp [h, optAppend_nil]
  | cons r rs ih =>
      simp only [List.foldl_cons, List.filterMap_cons]
      by_cases hq : (meta_from_record r layer).quality_score < config.minimum_quality
      · rw [if_pos hq, ih, if_neg (not_le.mpr hq)]
      · rw [if_neg hq, ih, if_pos (not_lt.mp hq), bucket?_addBlock]
        by_cases hm : m = tool
        · rw [if_pos hm, if_pos hm, if_pos hm]
          rw [show (some ((bucket? acc m).getD [] ++
              [(⟨r.title?.getD tool, r.body?.getD "", meta_from_record r layer,
                  r.tags?.getD []⟩ : ContentBlock)]))
            = optAppend (bucket? acc m)
                [⟨r.title?.getD tool, r.body?.getD "", meta_from_record r layer,
                  r.tags?.getD []⟩] from (optAppend_cons _ _ _).symm]
          rw [optAppend_assoc, List.singleton_append]
        · rw [if_neg hm, if_neg hm, if_neg hm]

theorem bucket?_tasks_fold (runner : ToolRunner) (config : ExecutionConfig)
    (tasks : List TaskPlan) (acc : List (String × List ContentBlock)) (m : String) :
    bucket? (tasks.foldl (fun acc task =>
        (runner task.tool task.args).foldl (fun acc record =>
          if (meta_from_record record (layer_for_tool task.tool)).quality_score
              < config.minimum_quality then acc
          else addBlock acc task.tool
            ⟨record.title?.getD task.tool, record.body?.getD "",
              meta_from_record record (layer_for_tool task.tool),
              record.tags?.getD []⟩) acc) acc) m
      = optAppend (bucket? acc m)
          ((tasks.filter (fun t => t.tool == m)).flatMap (kept_blocks runner config)) := by
  induction tasks generalizing acc with
  | nil => exact (optAppend_nil _).symm
  | cons t ts ih =>
      rw [List.foldl_cons, ih, bucket?_records_fold]
      by_cases hm : m = t.tool
      · rw [if_pos hm]
        rw [List.filter_cons_of_pos (by simp [hm])]
        rw [List.flatMap_cons]
        rw [optAppend_assoc]
        rfl
      · rw [if_neg hm]
        rw [List.filter_cons_of_neg (by simp; exact fun hh => hm hh.symm)]

/-! ## C7: executor quality filter, bucketing, and metadata defaults -/

/-- C7: the executed dataset's bucket for a tool name consists exactly of
the records whose quality score reaches `minimum_quality`, from that
tool's tasks in plan order (records strictly below the threshold are
absent); a record without metadata gets the per-field defaults, with
`source_score` 0.3 on the opinion layer and 0.6 otherwise; the default
`minimum_quality` is 0.5. -/
theorem execute_quality_filter_buckets_defaults (runner : ToolRunner)
    (config : ExecutionConfig) (plan : DailyStockReportPlan) (name : String) :
    bucket? (execute runner config plan).collected name
      = optAppend none
          ((plan.tasks.filter (fun t => t.tool == name)).flatMap
            (kept_blocks runner config))
    ∧ (∀ layer, meta_from_record Record.empty layer
        = SourceMeta.mk "unknown" layer
            (if layer = DataLayer.opinion then 3/10 else 6/10) (8/10) (7/10) (6/10))
    ∧ ExecutionConfig.default.minimum_quality = 1/2 := by
  refine ⟨?_, ?_, rfl⟩
  · exact bucket?_tasks_fold runner config plan.tasks [] name
  · intro layer
    rfl

/-! ## C10: kept records with missing fields get defaulted blocks -/

/-- C10: a kept record with no title, body, or tags fields is stored as a
`ContentBlock` whose title is the task's tool name, whose body is empty,
and whose tags are empty; the access never fails. -/
theorem execute_defaults_missing_record_fields (d tool : String)
    (args : List (String × JsonVal)) (purpose : JsonVal) (record : Record)
    (h1 : record.title? = none) (h2 : record.body? = none) (h3 : record.tags? = none)
    (hq : ExecutionConfig.default.minimum_quality
        ≤ (meta_from_record record (layer_for_tool tool)).quality_score) :
    bucket? (execute (fun _ _ => [record]) ExecutionConfig.default
        ⟨d, [⟨tool, args, purpose⟩], BASE_TASKS, JsonVal.null⟩).collected tool
      = some [⟨tool, "", meta_from_record record (layer_for_tool tool), []⟩] := by
  refine (bucket?_tasks_fold (fun _ _ => [record]) ExecutionConfig.default
      [⟨tool, args, purpose⟩] [] tool).trans ?_
  simp [kept_blocks, bucket?, h1, h2, h3, hq, optAppend]

/-- Witness for C10: the all-defaults record on the macro-snapshot tool
(quality 0.67 ≥ 0.5) is kept with the defaulted block fields. -/
theorem execute_defaults_missing_record_fields_witness :
    bucket? (execute (fun _ _ => [Record.empty]) ExecutionConfig.default
        ⟨"2024-01-02", [⟨"get_macro_snapshot", [], JsonVal.null⟩], BASE_TASKS,
          JsonVal.null⟩).collected "get_macro_snapshot"
      = some [⟨"get_macro_snapshot", "",
          meta_from_record Record.empty (layer_for_tool "get_macro_snapshot"), []⟩] :=
  execute_defaults_missing_record_fields "2024-01-02" "get_macro_snapshot" []
    JsonVal.null Record.empty rfl rfl rfl
    (by
      have h : meta_from_record Record.empty (layer_for_tool "get_macro_snapshot")
          = SourceMeta.mk "unknown" DataLayer.macroLayer (6/10) (8/10) (7/10) (6/10) := rfl
      rw [h]
      show (1 : ℚ)/2 ≤ _
      unfold SourceMeta.quality_score pyRound3 roundHalfEven
      norm_num)

/-! ## C9: report sections per layer, in display order -/

theorem sectionFor_inv {data : DailyStockReportData} {e : DataLayer × String}
    {s : ReportSection} (h : sectionFor data e = some s) :
    (blocks_by_layer data e.1).isEmpty = false
    ∧ s = ⟨e.2, String.intercalate "; " ((blocks_by_layer data e.1).map (·.title)),
        (blocks_by_layer data e.1).map (·.body),
        (if e.1 = DataLayer.opinion then some opinionCaution else none), e.1⟩ := by
  cases he : (blocks_by_layer data e.1).isEmpty
  · simp only [sectionFor, he, Bool.false_eq_true, if_false, Option.some.injEq] at h
    exact ⟨rfl, h.symm⟩
  · simp [sectionFor, he] at h

theorem sections_map_layer (data : DailyStockReportData)
    (ord : List (DataLayer × String)) :
    (ord.filterMap (sectionFor data)).map (fun s => s.layer)
      = (ord.map Prod.fst).filter (fun l => !(blocks_by_layer data l).isEmpty) := by
  induction ord with
  | nil => rfl
  | cons e rest ih =>
      cases he : (blocks_by_layer data e.1).isEmpty <;>
        simp [sectionFor, he, ih, List.filter_cons]

/-- C9: the placeholder report emits one section per layer with at least
one collected block, in the fixed display order price, disclosure, macro,
news, opinion; each section's summary is the semicolon-joined block titles
and its details are the block bodies; the static caution string is
attached exactly on the opinion layer, so if every opinion-layer record
was discarded there is no "시장 심리" section. -/
theorem report_layers_summaries_cautions (data : DailyStockReportData) :
    ((build_placeholder_report data).sections.map (fun s => s.layer)
        = (layerOrdering.map Prod.fst).filter
            (fun l => !(blocks_by_layer data l).isEmpty))
    ∧ (∀ s ∈ (build_placeholder_report data).sections,
        (blocks_by_layer data s.layer).isEmpty = false
        ∧ s.summary = String.intercalate "; "
            ((blocks_by_layer data s.layer).map (fun b => b.title))
        ∧ s.details = (blocks_by_layer data s.layer).map (fun b => b.body)
        ∧ (s.caution = some opinionCaution ↔ s.layer = DataLayer.opinion)
        ∧ (s.caution = none ↔ s.layer ≠ DataLayer.opinion))
    ∧ (blocks_by_layer data DataLayer.opinion = [] →
        ∀ s ∈ (build_placeholder_report data).sections, s.heading ≠ "시장 심리") := by
  refine ⟨sections_map_layer data layerOrdering, ?_, ?_⟩
  · intro s hs
    obtain ⟨e, he, hse⟩ := List.mem_filterMap.mp hs
    obtain ⟨hne, rfl⟩ := sectionFor_inv hse
    refine ⟨hne, rfl, rfl, ?_, ?_⟩
    · by_cases ho : e.1 = DataLayer.opinion <;> simp [ho, opinionCaution]
    · by_cases ho : e.1 = DataLayer.opinion <;> simp [ho, opinionCaution]
  · intro hop s hs
    obtain ⟨e, he, hse⟩ := List.mem_filterMap.mp hs
    obtain ⟨hne, rfl⟩ := sectionFor_inv hse
    fin_cases he
    · exact (by decide : ("지수/섹터" : String) ≠ "시장 심리")
    · exact (by decide : ("공시/기업 이벤트" : String) ≠ "시장 심리")
    · exact (by decide : ("거시/정책" : String) ≠ "시장 심리")
    · exact (by decide : ("뉴스/해석" : String) ≠ "시장 심리")
    · rw [show ((DataLayer.opinion, "시장 심리") : DataLayer × String).1
          = DataLayer.opinion from rfl] at hne
      rw [hop] at hne
      simp at hne

/-- Witness for C9: one kept news block, no opinion blocks — the report
has exactly the news section and no "시장 심리" heading. -/
theorem report_layers_summaries_cautions_witness :
    (build_placeholder_report ⟨"2024-01-02",
        [("search_kr_stock_news",
          [⟨"t", "b", ⟨"src", DataLayer.news, 1, 1, 1, 1⟩, []⟩])]⟩).sections.map
        (fun s => s.layer) = [DataLayer.news]
    ∧ ¬ ("시장 심리" ∈ (build_placeholder_report ⟨"2024-01-02",
        [("search_kr_stock_news",
          [⟨"t", "b", ⟨"src", DataLayer.news, 1, 1, 1, 1⟩, []⟩])]⟩).sections.map
        (fun s => s.heading)) := by
  have h := report_layers_summaries_cautions ⟨"2024-01-02",
    [("search_kr_stock_news", [⟨"t", "b", ⟨"src", DataLayer.news, 1, 1, 1, 1⟩, []⟩])]⟩
  constructor
  · exact h.1.trans (by rfl)
  · intro hmem
    rw [List.mem_map] at hmem
    obtain ⟨s, hs, hheading⟩ := hmem
    exact absurd hheading (h.2.2 rfl s hs)

end AutoReword
